import Mathlib

/-!
Verification development for the OAP discovery/invocation/trust reference.

Shallow embedding of the Python reference implementation:
* `oap_discovery/invoker.py` — SSRF URL guard, stdio command allow-list,
  manual-redirect HTTP invocation loop;
* `oap_trust/manifest.py` — the trust-side URL safety check;
* `oap_trust/capability_test.py`, `oap_trust/attestation.py` — Layer-2
  capability testing and attestation issuance;
* `oap_discovery/discovery.py` — the LLM-arbitration decision of `discover`;
* `oap_discovery/experience_store.py`, `experience_engine.py` — the
  procedural-memory store and the three-path routing engine;
* `oap_discovery/tool_executor.py` — the map-reduce chunk splitter.

External effects (DNS, the network, the LLM, `shutil.which`, subprocess
spawning, wall-clock time, SHA-256) are modelled as explicit environment
functions passed to the embedded code.  Character strings are Lean `String`s
(Python `str`); helper functions over `String.data` replace the Python string
methods so that everything kernel-evaluates.  Python floats (confidence
scores) are modelled as exact rationals.  IPv4 addresses are naturals below
2^32; the classification predicates reproduce the CPython `ipaddress`
module's registries (`is_private` includes the reserved `240.0.0.0/4` block).
-/

/-- Python-style string `startswith`: `strStartsWith s p` is `s.startswith(p)`. -/
def strStartsWith (s p : String) : Bool :=
  p.data.isPrefixOf s.data

/-- ASCII upper-casing of a string, the effect of Python `str.upper()` on the
ASCII method names appearing in manifests. -/
def upperStr (s : String) : String :=
  String.mk (s.data.map Char.toUpper)

/-- `joinWith sep parts` is Python `sep.join(parts)`. -/
def joinWith (sep : String) : List String → String
  | [] => ""
  | [v] => v
  | v :: rest => v ++ sep ++ joinWith sep rest

/-- Helper for `splitOnChar`: accumulates the current field (reversed). -/
def splitOnCharAux (c : Char) : List Char → List Char → List (List Char)
  | [], acc => [acc.reverse]
  | x :: xs, acc =>
    if x = c then acc.reverse :: splitOnCharAux c xs [] else splitOnCharAux c xs (x :: acc)

/-- Python `s.split(c)` for a single-character separator. -/
def splitOnChar (c : Char) (s : String) : List String :=
  (splitOnCharAux c s.data []).map String.mk

/-- An IPv4 address as its 32-bit numeric value. -/
def mkIP (a b c d : Nat) : Nat :=
  ((a * 256 + b) * 256 + c) * 256 + d

/-- Membership of an address in a CIDR network given by base address and mask length. -/
def inNet (addr base maskBits : Nat) : Bool :=
  addr / 2 ^ (32 - maskBits) = base / 2 ^ (32 - maskBits)

/-- CPython `ipaddress.IPv4Address.is_private`: membership in the
iana-ipv4-special-registry private networks (note that this includes the
reserved block `240.0.0.0/4` but not the multicast block `224.0.0.0/4`). -/
def ipIsPrivate (a : Nat) : Bool :=
  inNet a (mkIP 0 0 0 0) 8 || inNet a (mkIP 10 0 0 0) 8 || inNet a (mkIP 127 0 0 0) 8 ||
  inNet a (mkIP 169 254 0 0) 16 || inNet a (mkIP 172 16 0 0) 12 || inNet a (mkIP 192 0 0 0) 29 ||
  inNet a (mkIP 192 0 0 170) 31 || inNet a (mkIP 192 0 2 0) 24 || inNet a (mkIP 192 168 0 0) 16 ||
  inNet a (mkIP 198 18 0 0) 15 || inNet a (mkIP 198 51 100 0) 24 || inNet a (mkIP 203 0 113 0) 24 ||
  inNet a (mkIP 240 0 0 0) 4 || inNet a (mkIP 255 255 255 255) 32

/-- CPython `is_loopback` for IPv4: `127.0.0.0/8`. -/
def ipIsLoopback (a : Nat) : Bool := inNet a (mkIP 127 0 0 0) 8

/-- CPython `is_link_local` for IPv4: `169.254.0.0/16`. -/
def ipIsLinkLocal (a : Nat) : Bool := inNet a (mkIP 169 254 0 0) 16

/-- CPython `is_multicast` for IPv4: `224.0.0.0/4`. -/
def ipIsMulticast (a : Nat) : Bool := inNet a (mkIP 224 0 0 0) 4

/-- CPython `is_reserved` for IPv4: `240.0.0.0/4`. -/
def ipIsReserved (a : Nat) : Bool := inNet a (mkIP 240 0 0 0) 4

/-- A URL hostname: either an IP literal or a DNS name. -/
inductive Host where
  | ip (a : Nat)
  | name (s : String)
deriving DecidableEq

/-- The outcome of `urlparse` on a URL: its scheme and optional hostname.
URL parsing itself is not modelled; guards operate on the parsed form. -/
structure Url where
  scheme : String
  host : Option Host
deriving DecidableEq

/-- A DNS environment: `socket.getaddrinfo` on a DNS name, `none` meaning
`socket.gaierror`.  IP literals bypass DNS (`getaddrinfo` echoes them). -/
def DnsEnv : Type := String → Option (List Nat)

/-- Address resolution as performed by `socket.getaddrinfo`: an IP literal
resolves to itself, a name goes through the DNS environment. -/
def resolveHost (dns : DnsEnv) : Host → Option (List Nat)
  | .ip a => some [a]
  | .name s => dns s

/-- `oap_discovery/invoker.py` `_validate_http_url`: reject a missing
hostname, a resolution failure, or any resolved address that is
private/loopback/link-local.  No scheme check is performed. -/
def validateHttpUrl (dns : DnsEnv) (u : Url) : Except String Unit :=
  match u.host with
  | none => .error "Invalid URL"
  | some h =>
    match resolveHost dns h with
    | none => .error "Cannot resolve hostname"
    | some ips =>
      if ips.any (fun a => ipIsPrivate a || ipIsLoopback a || ipIsLinkLocal a) then
        .error "URL resolves to private IP"
      else
        .ok ()

/-- `oap_trust/manifest.py` `_is_private_ip`. -/
def trustIsPrivateIp (a : Nat) : Bool :=
  ipIsPrivate a || ipIsLoopback a || ipIsLinkLocal a || ipIsReserved a || ipIsMulticast a

/-- `oap_trust/manifest.py` `_validate_url`: scheme whitelist, hostname
presence, direct class check for IP literals, and DNS resolution with a class
check for every resolved address. -/
def validateUrlTrust (dns : DnsEnv) (allowHttp : Bool) (u : Url) : Except String Unit :=
  if !allowHttp && u.scheme != "https" then
    .error "Only HTTPS URLs are allowed"
  else if u.scheme != "http" && u.scheme != "https" then
    .error "Only HTTP(S) URLs are allowed"
  else
    match u.host with
    | none => .error "URL must have a hostname"
    | some (.ip a) =>
      if trustIsPrivateIp a then .error "Private IP addresses are not allowed" else .ok ()
    | some (.name s) =>
      match dns s with
      | none => .error "Could not resolve hostname"
      | some ips =>
        if ips.isEmpty then .error "Could not resolve hostname"
        else if ips.any trustIsPrivateIp then .error "Private IP addresses are not allowed"
        else .ok ()

/-- `oap_discovery/experience_models.py` `InvocationResult` (response bodies
as character lists so that the 10 KiB truncation is a plain `take`). -/
structure InvocationResult where
  status : String
  http_code : Option Int := none
  response_body : List Char := []
  latency_ms : Nat := 0
  error : Option String := none
deriving DecidableEq

/-- `oap_discovery/invoker.py` `ALLOWED_STDIO_PREFIXES` (note the trailing
slashes: the directory itself is not an allowed command). -/
def allowedStdioDirs : List String :=
  ["/usr/bin/", "/usr/local/bin/", "/bin/", "/opt/homebrew/bin/"]

/-- `oap_discovery/invoker.py` `_validate_stdio_command`: an absolute path
must begin with an allowed directory; a bare name goes through the `which`
environment (PATH lookup) and the result must begin with an allowed
directory. -/
def validateStdioCommand (whichFn : String → Option String) (command : String) :
    Except String String :=
  if strStartsWith command "/" then
    if allowedStdioDirs.any (fun p => strStartsWith command p) then .ok command
    else .error ("stdio command not in allowed directories: " ++ command)
  else
    match whichFn command with
    | none => .error ("Command not found: " ++ command)
    | some resolved =>
      if allowedStdioDirs.any (fun p => strStartsWith resolved p) then .ok resolved
      else .error ("Resolved command not in allowed directories: " ++ resolved)

/-- `oap_discovery/invoker.py` `_invoke_stdio` argv construction: the
resolved command followed by the stringified parameter values in insertion
order. -/
def buildArgv (command : String) (params : Option (List (String × String))) : List String :=
  command :: (params.getD []).map (fun kv => kv.2)

/-- The stdio branch of `invoke_manifest`: validate the command; on failure
return the `Blocked:` result without spawning, otherwise hand the resolved
path to the subprocess environment `spawn`. -/
def invokeStdioGuarded (whichFn : String → Option String)
    (spawn : String → InvocationResult) (command : String) : InvocationResult :=
  match validateStdioCommand whichFn command with
  | .error e => { status := "failure", latency_ms := 0, error := some ("Blocked: " ++ e) }
  | .ok cmd => spawn cmd

/-- httpx `codes.is_redirect`: the five redirect codes a client follows. -/
def isRedirectCode (c : Nat) : Bool :=
  c == 301 || c == 302 || c == 303 || c == 307 || c == 308

/-- httpx `codes.is_success`: `200 <= code <= 299`. -/
def isSuccessCode (c : Nat) : Bool :=
  200 ≤ c && c ≤ 299

/-- One network exchange: either a timeout (`httpx.TimeoutException`) or a
response with status code, optional absolute `Location` header (the
`resp.url.join(location)` result), and body text. -/
inductive NetAnswer where
  | timeout
  | resp (code : Nat) (location : Option Url) (body : List Char)

/-- The network environment: the response produced by dialing a URL. -/
def NetEnv : Type := Url → NetAnswer

/-- Outcome of the manual redirect loop of `_invoke_http`. -/
inductive LoopOut where
  | timedOut
  | ssrfHit (u : Url) (msg : String)
  | final (code : Nat) (location : Option Url) (body : List Char)
deriving DecidableEq

/-- `oap_discovery/invoker.py` `_invoke_http` redirect loop
(`for _ in range(max_redirects + 1)`), returning the list of URLs actually
dialed together with the loop outcome.  `fuel` is the number of additional
dials still allowed after the current one; the loop starts with fuel 5.
A redirect `Location` is re-validated before it is followed; when the hop
budget is exhausted the last redirect response becomes the final response. -/
def redirectLoop (dns : DnsEnv) (net : NetEnv) (fuel : Nat) (url : Url) :
    List Url × LoopOut :=
  match net url with
  | .timeout => ([url], .timedOut)
  | .resp code loc body =>
    if isRedirectCode code && loc.isSome then
      match loc with
      | none => ([url], .final code loc body)
      | some nextUrl =>
        match validateHttpUrl dns nextUrl with
        | .error e => ([url], .ssrfHit nextUrl e)
        | .ok _ =>
          match fuel with
          | 0 => ([url], .final code loc body)
          | f + 1 =>
            let rest := redirectLoop dns net f nextUrl
            (url :: rest.1, rest.2)
    else ([url], .final code loc body)

/-- `MAX_RESPONSE_BYTES` — response bodies are truncated to 10 KiB. -/
def maxResponseBytes : Nat := 10 * 1024

/-- Result assembly of `_invoke_http`: a timeout yields the timeout error
string; a validation failure inside the loop surfaces as a generic failure
with the raised message; a final response maps to success exactly on
`resp.is_success`, with the body truncated. -/
def invokeHttpFromLoop (timeoutS : Nat) (out : LoopOut) : InvocationResult :=
  match out with
  | .timedOut =>
    { status := "failure", error := some ("HTTP timeout after " ++ toString timeoutS ++ "s") }
  | .ssrfHit _ e =>
    { status := "failure", error := some e }
  | .final code _ body =>
    { status := if isSuccessCode code then "success" else "failure"
      http_code := some (Int.ofNat code)
      response_body := body.take maxResponseBytes
      error := if isSuccessCode code then none else some ("HTTP " ++ toString code) }

/-- `_invoke_http` over the abstract network: run the redirect loop with a
budget of 5 extra hops and assemble the result. -/
def invokeHttp (dns : DnsEnv) (net : NetEnv) (timeoutS : Nat) (url : Url) :
    List Url × InvocationResult :=
  let r := redirectLoop dns net 5 url
  (r.1, invokeHttpFromLoop timeoutS r.2)

/-- The HTTP branch of `invoke_manifest`: the URL guard runs before the first
dial; on rejection the result is the `SSRF blocked:` failure and nothing is
dialed. -/
def invokeManifestHttp (dns : DnsEnv) (net : NetEnv) (timeoutS : Nat) (u : Url) :
    List Url × InvocationResult :=
  match validateHttpUrl dns u with
  | .error e => ([], { status := "failure", latency_ms := 0, error := some ("SSRF blocked: " ++ e) })
  | .ok _ => invokeHttp dns net timeoutS u

/-- A manifest example entry as used by the capability test
(`examples[0].get("input")`, modelled as an opaque payload). -/
structure TExample where
  input : Option String := none
deriving DecidableEq

/-- The manifest fields read by `oap_trust/capability_test.py`:
`invoke.method`, `invoke.url` (parsed), `invoke.auth`, `health` (parsed),
`examples`, `input.format` and `output.format`. -/
structure TManifest where
  invoke_method : Option String := none
  invoke_url : Option Url := none
  invoke_auth : Option String := none
  health : Option Url := none
  examples : List TExample := []
  input_format : Option String := none
  output_format : Option String := none
deriving DecidableEq

/-- `oap_trust/models.py` `CapabilityTestResult`. -/
structure CapabilityTestResult where
  endpoint_live : Bool
  health_ok : Option Bool := none
  example_passed : Option Bool := none
  format_match : Option Bool := none
  errors : List String := []
  passed : Bool
deriving DecidableEq

/-- Network environment of the capability test: status codes of the liveness
GET and HEAD probes, of the health GET, and status plus `Content-Type` of the
example invocation (POST or GET).  `none` models `httpx.RequestError`. -/
structure CapEnv where
  liveGet : Option Nat := none
  liveHead : Option Nat := none
  healthGet : Option Nat := none
  examplePost : Option (Nat × String) := none
  exampleGet : Option Nat := none

/-- Liveness flag of Test 1: any non-5xx response is "live". -/
def probeLive (r : Option Nat) : Bool :=
  match r with
  | some code => decide (code < 500)
  | none => false

/-- Errors appended by Test 1. -/
def probeLiveErrors (r : Option Nat) : List String :=
  match r with
  | some code => if code < 500 then [] else ["Endpoint returned " ++ toString code]
  | none => ["Endpoint unreachable"]

/-- Test 2 (health endpoint): run only when the manifest declares `health`;
a guard rejection or request error counts as a failed health check. -/
def healthCheckOk (dns : DnsEnv) (allowHttp : Bool) (env : CapEnv) :
    Option Url → Option Bool
  | none => none
  | some hu =>
    match validateUrlTrust dns allowHttp hu with
    | .error _ => some false
    | .ok _ =>
      match env.healthGet with
      | none => some false
      | some hc => some (decide (hc < 400))

/-- Errors appended by Test 2. -/
def healthCheckErrors (dns : DnsEnv) (allowHttp : Bool) (env : CapEnv) :
    Option Url → List String
  | none => []
  | some hu =>
    match validateUrlTrust dns allowHttp hu with
    | .error _ => ["Health check failed"]
    | .ok _ =>
      match env.healthGet with
      | none => ["Health check failed"]
      | some hc => if hc < 400 then [] else ["Health endpoint returned " ++ toString hc]

/-- Outcome of Test 3 (example invocation). -/
structure ExampleOutcome where
  example_passed : Option Bool := none
  format_match : Option Bool := none
  errors : List String := []

/-- Python `s.split(";")[0]`. -/
def firstSemiComponent (s : String) : String :=
  String.mk (s.data.takeWhile (fun c => c ≠ ';'))

/-- Python substring containment (`needle in hay`). -/
def containsSubstr (hay needle : List Char) : Bool :=
  needle.isPrefixOf hay ||
    match hay with
    | [] => false
    | _ :: t => containsSubstr t needle

/-- Test 3 of `test_capability`: run only when examples exist and the
endpoint is live.  A POST with an example input is judged by status < 400;
when it passed and an `output.format` is declared, the format is
loose-matched against the response `Content-Type`.  A plain GET example is
judged by status alone.  A request error marks the example failed. -/
def exampleProbe (env : CapEnv) (m : TManifest) (method : String) (live : Bool) :
    ExampleOutcome :=
  match m.examples with
  | [] => {}
  | ex0 :: _ =>
    if live then
      if method = "POST" ∧ ex0.input ≠ none then
        match env.examplePost with
        | none => { example_passed := some false, errors := ["Example invocation failed"] }
        | some (code, actualCt) =>
          let ep := decide (code < 400)
          let errsA := if code < 400 then [] else ["Example invocation returned " ++ toString code]
          match m.output_format with
          | some ef =>
            if ef ≠ "" ∧ ep = true then
              let fm := containsSubstr actualCt.data (firstSemiComponent ef).data
              { example_passed := some ep, format_match := some fm
                errors := errsA ++ (if fm then [] else
                  ["Output format mismatch: expected " ++ ef ++ ", got " ++ actualCt]) }
            else { example_passed := some ep, errors := errsA }
          | none => { example_passed := some ep, errors := errsA }
      else if method = "GET" then
        match env.exampleGet with
        | none => { example_passed := some false, errors := ["Example invocation failed"] }
        | some code =>
          { example_passed := some (decide (code < 400))
            errors := if code < 400 then [] else ["GET invocation returned " ++ toString code] }
      else {}
    else {}

/-- `oap_trust/capability_test.py` `test_capability`.  Note the faithful
reproduction of the source's `method = invoke.get("method", "GET").upper()`
followed by a comparison against the lower-case literal `"stdio"`. -/
def testCapability (dns : DnsEnv) (allowHttp : Bool) (env : CapEnv) (m : TManifest) :
    CapabilityTestResult :=
  let method := upperStr (m.invoke_method.getD "GET")
  if method = "stdio" then
    { endpoint_live := false, passed := false, errors := ["Cannot test stdio invocations remotely"] }
  else
    match m.invoke_url with
    | none => { endpoint_live := false, passed := false, errors := ["No invoke URL in manifest"] }
    | some url =>
      match validateUrlTrust dns allowHttp url with
      | .error e =>
        { endpoint_live := false, passed := false
          errors := ["Invoke URL failed safety check: " ++ e] }
      | .ok _ =>
        if (match m.invoke_auth with | some a => a != "" && a != "none" | none => false : Bool) then
          { endpoint_live := false, passed := false
            errors := ["Cannot test auth-gated endpoint (auth: " ++
              (m.invoke_auth.getD "") ++ ")"] }
        else
          let liveResp := if method = "GET" ∨ method = "HEAD" then env.liveGet else env.liveHead
          let live := probeLive liveResp
          let healthOk := healthCheckOk dns allowHttp env m.health
          let ex := exampleProbe env m method live
          { endpoint_live := live
            health_ok := healthOk
            example_passed := ex.example_passed
            format_match := ex.format_match
            errors := probeLiveErrors liveResp ++
              healthCheckErrors dns allowHttp env m.health ++ ex.errors
            passed := live && (healthOk != some false) }

/-- The Layer-2 attestation record fields relevant here. -/
structure AttestationRec where
  domain : String
  layer : Nat
  verification_method : Option String := none
deriving DecidableEq

/-- `oap_trust/attestation.py` `AttestationService.attest_capability`:
a failed manifest fetch yields a failed result and no attestation; otherwise
run the capability test and sign-and-store a Layer-2 attestation exactly when
the test passed. -/
def attestCapability (dns : DnsEnv) (allowHttp : Bool) (env : CapEnv) (domain : String)
    (fetched : Option TManifest) : CapabilityTestResult × Option AttestationRec :=
  match fetched with
  | none =>
    ({ endpoint_live := false, passed := false, errors := ["Failed to fetch manifest"] }, none)
  | some m =>
    let tr := testCapability dns allowHttp env m
    if tr.passed then
      (tr, some { domain := domain, layer := 2, verification_method := some "capability_test" })
    else
      (tr, none)

/-- `oap_discovery/models.py` `InvokeSpec` (headers as an association list). -/
structure InvokeSpec where
  method : String
  url : String
  auth : Option String := none
  auth_name : Option String := none
  headers : List (String × String) := []
deriving DecidableEq

/-- `oap_discovery/models.py` `DiscoverMatch` (score is the raw cosine
distance, as a rational). -/
structure DiscoverMatch where
  domain : String
  name : String
  description : String
  invoke : InvokeSpec
  score : ℚ
  reason : Option String := none
deriving DecidableEq

/-- The `pick` field of a parsed LLM arbitration reply: JSON `null` or a
string (Python truthiness distinguishes `""` from other strings). -/
inductive PickVal where
  | pnull
  | pstr (s : String)
deriving DecidableEq

/-- A successfully JSON-decoded arbitration reply. -/
structure ParsedReply where
  pick : PickVal
  reason : Option String := none
deriving DecidableEq

/-- Outcome of the arbitration LLM call in `DiscoveryEngine.discover`:
the call raised, or it returned text whose `_extract_json` result is `none`
(parse failure) or a parsed reply. -/
inductive LLMOutcome where
  | failed
  | reply (parsed : Option ParsedReply)

/-- The fallback reason attached to the top vector hit. -/
def vectorFallbackReason : String :=
  "Selected by vector similarity (LLM reasoning unavailable)"

/-- Sets the `reason` of the first candidate with the given domain,
mirroring the in-place mutation `match.reason = reason` of the list element. -/
def setReasonFirst (d r : String) : List DiscoverMatch → List DiscoverMatch
  | [] => []
  | c :: rest =>
    if c.domain = d then { c with reason := some r } :: rest
    else c :: setReasonFirst d r rest

/-- The reply-handling steps 3–5 of `DiscoveryEngine.discover` for a
non-empty candidate list (the empty-hits early return precedes this in the
source): a truthy `pick` found in the candidate list becomes the match with
the reply's reason; `pick = null` yields no match; anything else — the LLM
call raising, a parse failure, a falsy pick, or a pick that is not a
candidate domain — falls back to the top vector hit with the fixed reason. -/
def discoverDecision (cands : List DiscoverMatch) (llm : LLMOutcome) :
    Option DiscoverMatch × List DiscoverMatch :=
  let fallback : Option DiscoverMatch × List DiscoverMatch :=
    match cands with
    | [] => (none, [])
    | c :: rest =>
      let fb := { c with reason := some vectorFallbackReason }
      (some fb, fb :: rest)
  match llm with
  | .failed => fallback
  | .reply none => fallback
  | .reply (some p) =>
    match p.pick with
    | .pnull => (none, cands)
    | .pstr d =>
      if d = "" then fallback
      else
        match cands.find? (fun c => c.domain == d) with
        | some c =>
          (some { c with reason := some (p.reason.getD "") }, setReasonFirst d (p.reason.getD "") cands)
        | none => fallback

/-- `oap_discovery/experience_models.py` `ParameterMapping`. -/
structure ParameterMapping where
  source : String := "task"
  transform : Option String := none
  value_used : String
deriving DecidableEq

/-- `oap_discovery/experience_models.py` `IntentRecord`. -/
structure IntentRecord where
  raw : String
  fingerprint : String
  domain : String
deriving DecidableEq

/-- `oap_discovery/experience_models.py` `DiscoveryRecord`. -/
structure DiscoveryRecord where
  query_used : String
  manifest_matched : String
  manifest_version : Option String := none
  confidence : ℚ
deriving DecidableEq

/-- `oap_discovery/experience_models.py` `InvocationRecord` (the parameter
mapping as an association list, preserving Python dict insertion order). -/
structure InvocationRecord where
  endpoint : String
  method : String
  parameter_mapping : List (String × ParameterMapping) := []
  headers_required : List String := []
deriving DecidableEq

/-- `oap_discovery/experience_models.py` `OutcomeRecord`. -/
structure OutcomeRecord where
  status : String
  http_code : Option Int := none
  response_summary : String := ""
  latency_ms : Option Nat := none
deriving DecidableEq

/-- `oap_discovery/experience_models.py` `ExperienceRecord`; timestamps are
abstract instants (naturals). -/
structure ExperienceRecord where
  id : String
  timestamp : Nat
  use_count : Nat := 1
  last_used : Nat
  intent : IntentRecord
  discovery : DiscoveryRecord
  invocation : InvocationRecord
  outcome : OutcomeRecord
  corrections : List String := []
deriving DecidableEq

/-- The `ORDER BY use_count DESC, last_used DESC` ordering of the store's
fingerprint queries. -/
def expBefore (a b : ExperienceRecord) : Prop :=
  b.use_count < a.use_count ∨ (a.use_count = b.use_count ∧ b.last_used ≤ a.last_used)

instance : DecidableRel expBefore := fun a b => by
  unfold expBefore; infer_instance

/-- `ExperienceStore.find_by_fingerprint`: exact fingerprint match, ordered
by `(use_count DESC, last_used DESC)`, limited (default `LIMIT 5`). -/
def findByFingerprint (store : List ExperienceRecord) (fp : String) (limit : Nat := 5) :
    List ExperienceRecord :=
  ((store.filter (fun r => r.intent.fingerprint == fp)).insertionSort expBefore).take limit

/-- `ExperienceStore.find_similar`: same intent domain and fingerprint
`LIKE prefix%`, same ordering and limit. -/
def findSimilar (store : List ExperienceRecord) (dom pre : String) (limit : Nat := 5) :
    List ExperienceRecord :=
  ((store.filter (fun r =>
      r.intent.domain == dom && strStartsWith r.intent.fingerprint pre)).insertionSort
    expBefore).take limit

/-- `ExperienceStore.touch`: `use_count += 1; last_used = now` on the row
with the given id. -/
def touchStore (store : List ExperienceRecord) (id : String) (now : Nat) :
    List ExperienceRecord :=
  store.map (fun r =>
    if r.id == id then { r with use_count := r.use_count + 1, last_used := now } else r)

/-- `ExperienceStore.degrade_confidence`: look up the row's confidence;
if absent return `none` and change nothing; otherwise multiply by `factor`,
set the outcome status to `"failure"`, and return the new confidence. -/
def degradeConfidence (store : List ExperienceRecord) (id : String)
    (factor : ℚ := mkRat 7 10) : Option ℚ × List ExperienceRecord :=
  match store.find? (fun r => r.id == id) with
  | none => (none, store)
  | some r =>
    let newConfidence := r.discovery.confidence * factor
    (some newConfidence,
      store.map (fun s =>
        if s.id == id then
          { s with discovery := { s.discovery with confidence := newConfidence }
                   outcome := { s.outcome with status := "failure" } }
        else s))

/-- `ExperienceStore.save`: `INSERT OR REPLACE` keyed on id. -/
def saveRecord (store : List ExperienceRecord) (r : ExperienceRecord) :
    List ExperienceRecord :=
  if store.any (fun s => s.id == r.id) then
    store.map (fun s => if s.id == r.id then r else s)
  else
    store ++ [r]

/-- The cache-hit eligibility test of `ExperienceEngine.process`:
`exp.discovery.confidence >= threshold and exp.outcome.status == "success"`. -/
def cacheEligible (threshold : ℚ) (r : ExperienceRecord) : Bool :=
  decide (r.discovery.confidence ≥ threshold) && (r.outcome.status == "success")

/-- `oap_discovery/experience_models.py` `ExperienceRoute`. -/
structure ExperienceRoute where
  path : String
  cache_confidence : Option ℚ := none
  experience_id : Option String := none
deriving DecidableEq

/-- `oap_discovery/experience_models.py` `ExperienceInvokeRequest`. -/
structure ExperienceInvokeRequest where
  task : String
  top_k : Nat := 5
  confidence_threshold : ℚ := mkRat 85 100
deriving DecidableEq

/-- `oap_discovery/experience_models.py` `ExperienceInvokeResponse`. -/
structure ExperienceInvokeResponse where
  task : String
  route : ExperienceRoute
  matched : Option DiscoverMatch := none
  experience : Option ExperienceRecord := none
  invocation_result : Option InvocationResult := none
  candidates : List DiscoverMatch := []
deriving DecidableEq

/-- The discovery result as consumed by the experience engine. -/
structure DiscoverOut where
  matched : Option DiscoverMatch := none
  candidates : List DiscoverMatch := []

/-- The effectful collaborators of `ExperienceEngine.process` for one
request: the LLM fingerprint outcome, the discovery result, the LLM-extracted
parameter mappings, the invoker, the clock, the UTC date string, and the
8-hex-character SHA-256 digest used by `_make_experience_id`. -/
structure EngineEnv where
  fingerprintResult : Option (String × String)
  discoverResult : DiscoverOut := {}
  extractedParams : List (String × ParameterMapping) := []
  invoke : InvokeSpec → Option (List (String × String)) → Option String → InvocationResult
  now : Nat := 0
  today : String := "20250101"
  hash8 : String → String := fun _ => "00000000"

/-- `_make_experience_id`: `exp_<YYYYMMDD>_<first 8 hex of sha256(fp:domain)>`. -/
def makeExperienceId (env : EngineEnv) (fp manifestDomain : String) : String :=
  "exp_" ++ env.today ++ "_" ++ env.hash8 (fp ++ ":" ++ manifestDomain)

/-- Parameter construction of `_path1_cache_hit` (experience_engine.py lines
204–219): for a non-empty cached mapping, a stdio method joins the cached
values with single spaces into the stdin text and passes no params, any other
method passes the name→value dict. -/
def stdioParamsPath1 (method : String) (pm : List (String × ParameterMapping)) :
    Option (List (String × String)) × Option String :=
  if pm.isEmpty then (none, none)
  else if upperStr method = "STDIO" then
    let values := pm.map (fun kv => kv.2.value_used)
    (none, if values.isEmpty then none else some (joinWith " " values))
  else
    (some (pm.map (fun kv => (kv.1, kv.2.value_used))), none)

/-- Parameter construction of `_path2_partial_match` (experience_engine.py
lines 285–292) applied to the freshly extracted mappings. -/
def stdioParamsPath2 (method : String) (pm : List (String × ParameterMapping)) :
    Option (List (String × String)) × Option String :=
  if pm.isEmpty then (none, none)
  else if upperStr method = "STDIO" then
    let values := pm.map (fun kv => kv.2.value_used)
    (none, if values.isEmpty then none else some (joinWith " " values))
  else
    (some (pm.map (fun kv => (kv.1, kv.2.value_used))), none)

/-- Parameter construction of `_path3_full_discovery` (experience_engine.py
lines 372–379). -/
def stdioParamsPath3 (method : String) (pm : List (String × ParameterMapping)) :
    Option (List (String × String)) × Option String :=
  if pm.isEmpty then (none, none)
  else if upperStr method = "STDIO" then
    let values := pm.map (fun kv => kv.2.value_used)
    (none, if values.isEmpty then none else some (joinWith " " values))
  else
    (some (pm.map (fun kv => (kv.1, kv.2.value_used))), none)

/-- The new `ExperienceRecord` built identically by paths 2 and 3 after an
invocation (`confidence = 1 - score` unless the score is at least 1, in which
case the score is stored as-is). -/
def mkNewExperience (env : EngineEnv) (req : ExperienceInvokeRequest) (fp dom : String)
    (m : DiscoverMatch) (pm : List (String × ParameterMapping))
    (result : InvocationResult) : ExperienceRecord :=
  { id := makeExperienceId env fp m.domain
    timestamp := env.now
    use_count := 1
    last_used := env.now
    intent := { raw := req.task, fingerprint := fp, domain := dom }
    discovery := { query_used := req.task, manifest_matched := m.domain,
                   manifest_version := none,
                   confidence := if m.score < 1 then 1 - m.score else m.score }
    invocation := { endpoint := m.invoke.url, method := m.invoke.method,
                    parameter_mapping := pm }
    outcome := { status := result.status, http_code := result.http_code,
                 response_summary := String.mk (result.response_body.take 200),
                 latency_ms := some result.latency_ms } }

/-- `ExperienceEngine._path1_cache_hit`: rebuild the invoke spec and params
from the cached record, invoke, `touch` the record, and answer with the
`cache_hit` route. -/
def path1CacheHit (env : EngineEnv) (store : List ExperienceRecord)
    (req : ExperienceInvokeRequest) (exp : ExperienceRecord) :
    ExperienceInvokeResponse × List ExperienceRecord :=
  let spec : InvokeSpec := { method := exp.invocation.method, url := exp.invocation.endpoint }
  let ps := stdioParamsPath1 spec.method exp.invocation.parameter_mapping
  let result := env.invoke spec ps.1 ps.2
  let store1 := touchStore store exp.id env.now
  let matched : DiscoverMatch :=
    { domain := exp.discovery.manifest_matched
      name := exp.discovery.manifest_matched
      description := "Cached: " ++ exp.intent.fingerprint
      invoke := spec
      score := 1 - exp.discovery.confidence
      reason := some ("Experience cache hit (used " ++ toString (exp.use_count + 1) ++ " times)") }
  ({ task := req.task
     route := { path := "cache_hit"
                cache_confidence := some exp.discovery.confidence
                experience_id := some exp.id }
     matched := some matched
     experience := some exp
     invocation_result := some result }, store1)

/-- `ExperienceEngine._path2_partial_match`: rerun full discovery; without a
match, answer with candidates only; with a match, extract params, invoke, and
save a fresh experience record. -/
def path2PartialMatchRun (env : EngineEnv) (store : List ExperienceRecord)
    (req : ExperienceInvokeRequest) (fp dom : String) (template : ExperienceRecord) :
    ExperienceInvokeResponse × List ExperienceRecord :=
  match env.discoverResult.matched with
  | none =>
    ({ task := req.task
       route := { path := "partial_match"
                  cache_confidence := some template.discovery.confidence
                  experience_id := some template.id }
       candidates := env.discoverResult.candidates }, store)
  | some m =>
    let pm := env.extractedParams
    let ps := stdioParamsPath2 m.invoke.method pm
    let result := env.invoke m.invoke ps.1 ps.2
    let record := mkNewExperience env req fp dom m pm result
    ({ task := req.task
       route := { path := "partial_match"
                  cache_confidence := some template.discovery.confidence
                  experience_id := some record.id }
       matched := some m
       experience := some record
       invocation_result := some result
       candidates := env.discoverResult.candidates }, saveRecord store record)

/-- `ExperienceEngine._path3_full_discovery`. -/
def path3FullDiscovery (env : EngineEnv) (store : List ExperienceRecord)
    (req : ExperienceInvokeRequest) (fp dom : String) :
    ExperienceInvokeResponse × List ExperienceRecord :=
  match env.discoverResult.matched with
  | none =>
    ({ task := req.task
       route := { path := "full_discovery" }
       candidates := env.discoverResult.candidates }, store)
  | some m =>
    let pm := env.extractedParams
    let ps := stdioParamsPath3 m.invoke.method pm
    let result := env.invoke m.invoke ps.1 ps.2
    let record := mkNewExperience env req fp dom m pm result
    ({ task := req.task
       route := { path := "full_discovery"
                  experience_id := some record.id }
       matched := some m
       experience := some record
       invocation_result := some result
       candidates := env.discoverResult.candidates }, saveRecord store record)

/-- `ExperienceEngine.process`: fingerprint the intent (a failure goes
straight to path 3 with `"unknown"` labels); look for the first eligible
record among the exact-fingerprint matches (path 1); otherwise try similar
records under the two-part fingerprint prefix (path 2); otherwise path 3. -/
def processEngine (env : EngineEnv) (store : List ExperienceRecord)
    (req : ExperienceInvokeRequest) :
    ExperienceInvokeResponse × List ExperienceRecord :=
  match env.fingerprintResult with
  | none => path3FullDiscovery env store req "unknown" "unknown"
  | some (fp, dom) =>
    let exact := findByFingerprint store fp
    match exact.find? (cacheEligible req.confidence_threshold) with
    | some exp => path1CacheHit env store req exp
    | none =>
      let fpParts := splitOnChar '.' fp
      if 2 ≤ fpParts.length then
        let pre := joinWith "." (fpParts.take 2)
        match findSimilar store dom pre with
        | best :: _ => path2PartialMatchRun env store req fp dom best
        | [] => path3FullDiscovery env store req fp dom
      else
        path3FullDiscovery env store req fp dom

/-- Index of the last `"\n"` among the first `n` characters
(`text.rfind("\n", start, start + chunk_size)` relative to the suffix;
`none` is Python's `-1`): the first newline position scanning downward
from `n - 1`. -/
def lastNlIdx (t : List Char) (n : Nat) : Option Nat :=
  (List.range n).reverse.find? (fun i => t[i]? == some '\n')

/-- The chunk cut point of one `_split_chunks` iteration (tool_executor.py):
`chunk_size` characters, backtracking to just after the last newline strictly
inside the window (Python's `if nl > start: end = nl + 1`). -/
def chunkStop (t : List Char) (n : Nat) : Nat :=
  match lastNlIdx t n with
  | some nl => if 0 < nl then nl + 1 else n
  | none => n

/-- Fuel-indexed loop of `_split_chunks`: while text remains, cut one chunk
and continue on the remainder; the fuel dominates the loop count whenever
`chunk_size > 0` (with `chunk_size = 0` the Python loop itself diverges). -/
def splitChunksAux (n : Nat) : Nat → List Char → List (List Char)
  | 0, _ => []
  | fuel + 1, t =>
    if t.isEmpty then []
    else if t.length ≤ n then [t]
    else
      t.take (chunkStop t n) :: splitChunksAux n fuel (t.drop (chunkStop t n))

/-- `oap_discovery/tool_executor.py` `_split_chunks`. -/
def splitChunks (t : List Char) (n : Nat) : List (List Char) :=
  splitChunksAux n t.length t

theorem lastNlIdx_lt {t : List Char} {n nl : Nat} (h : lastNlIdx t n = some nl) : nl < n := by
  have hmem := List.mem_of_find?_eq_some h
  rw [List.mem_reverse] at hmem
  exact List.mem_range.mp hmem

theorem chunkStop_pos {t : List Char} {n : Nat} (hn : 0 < n) : 0 < chunkStop t n := by
  rcases h : lastNlIdx t n with _ | nl
  · simpa [chunkStop, h] using hn
  · simp only [chunkStop, h]
    split <;> omega

theorem chunkStop_le {t : List Char} {n : Nat} : chunkStop t n ≤ n := by
  rcases h : lastNlIdx t n with _ | nl
  · simp [chunkStop, h]
  · have := lastNlIdx_lt h
    simp only [chunkStop, h]
    split <;> omega

theorem splitChunksAux_spec (n : Nat) (hn : 0 < n) :
    ∀ fuel t, t.length ≤ fuel →
      (splitChunksAux n fuel t).flatten = t ∧
        ∀ c ∈ splitChunksAux n fuel t, c ≠ [] ∧ c.length ≤ n := by
  intro fuel
  induction fuel with
  | zero =>
    intro t ht
    have : t = [] := List.length_eq_zero.mp (Nat.le_zero.mp ht)
    subst this
    simp [splitChunksAux]
  | succ fuel ih =>
    intro t ht
    by_cases hemp : t.isEmpty
    · have : t = [] := List.isEmpty_iff.mp hemp
      subst this
      simp [splitChunksAux]
    · have htne : t ≠ [] := by
        intro hcon; subst hcon; simp at hemp
      by_cases hlen : t.length ≤ n
      · rw [splitChunksAux, if_neg (by simp [hemp]), if_pos hlen]
        refine ⟨by simp, ?_⟩
        intro c hc
        simp at hc
        subst hc
        exact ⟨htne, hlen⟩
      · rw [splitChunksAux, if_neg (by simp [hemp]), if_neg hlen]
        have hstop1 : 0 < chunkStop t n := chunkStop_pos hn
        have hstop2 : chunkStop t n ≤ n := chunkStop_le
        have hlt : chunkStop t n < t.length := by omega
        have hrec : (t.drop (chunkStop t n)).length ≤ fuel := by
          rw [List.length_drop]; omega
        obtain ⟨ihjoin, ihmem⟩ := ih (t.drop (chunkStop t n)) hrec
        refine ⟨?_, ?_⟩
        · simp only [List.flatten_cons, ihjoin, List.take_append_drop]
        · intro c hc
          rcases List.mem_cons.mp hc with hc | hc
          · subst hc
            constructor
            · apply List.ne_nil_of_length_pos
              rw [List.length_take]
              omega
            · rw [List.length_take]
              omega
          · exact ihmem c hc

/-- C10: for every text and every chunk size `n > 0`, `_split_chunks`
returns a list of non-empty chunks, each of length at most `n`, whose
in-order concatenation is exactly the original text. -/
theorem c10_split_chunks (t : List Char) (n : Nat) (hn : 0 < n) :
    (splitChunks t n).flatten = t ∧
      ∀ c ∈ splitChunks t n, c ≠ [] ∧ c.length ≤ n := by
  unfold splitChunks
  exact splitChunksAux_spec n hn t.length t (Nat.le_refl _)

/-- C10 witness: the properties instantiated on the concrete text
`"ab\ncd\nef"` with chunk size 4. -/
theorem c10_split_chunks_witness :
    0 < 4 ∧
      ((splitChunks ("ab\ncd\nef".data) 4).flatten = "ab\ncd\nef".data ∧
        ∀ c ∈ splitChunks ("ab\ncd\nef".data) 4, c ≠ [] ∧ c.length ≤ 4) :=
  ⟨by decide, c10_split_chunks ("ab\ncd\nef".data) 4 (by decide)⟩

/-- C2: for every stdio invocation, either the command validates — an
absolute path that begins with one of the allow-listed directory prefixes,
or a bare name whose PATH resolution begins with one — or the Invoker
returns, independently of the subprocess environment (hence before any
spawn), a failure whose error message starts with `Blocked`. -/
theorem c2_stdio_allowlist (command : String) (whichFn : String → Option String)
    (spawn : String → InvocationResult) :
    (∃ resolved, validateStdioCommand whichFn command = .ok resolved ∧
        allowedStdioDirs.any (fun p => strStartsWith resolved p) = true ∧
        ((strStartsWith command "/" = true ∧ resolved = command) ∨
          (strStartsWith command "/" = false ∧ whichFn command = some resolved))) ∨
    ((invokeStdioGuarded whichFn spawn command).status = "failure" ∧
      (∃ e, (invokeStdioGuarded whichFn spawn command).error = some ("Blocked: " ++ e)) ∧
      ∀ spawn2, invokeStdioGuarded whichFn spawn2 command =
        invokeStdioGuarded whichFn spawn command) := by
  by_cases h1 : strStartsWith command "/"
  · by_cases h2 : allowedStdioDirs.any (fun p => strStartsWith command p)
    · left
      refine ⟨command, ?_, h2, Or.inl ⟨h1, rfl⟩⟩
      unfold validateStdioCommand
      simp [h1, h2]
    · right
      have hv : validateStdioCommand whichFn command =
          .error ("stdio command not in allowed directories: " ++ command) := by
        unfold validateStdioCommand
        simp [h1, h2]
      refine ⟨?_, ⟨"stdio command not in allowed directories: " ++ command, ?_⟩,
        fun spawn2 => ?_⟩ <;> simp [invokeStdioGuarded, hv]
  · cases hw : whichFn command with
    | none =>
      right
      have hv : validateStdioCommand whichFn command =
          .error ("Command not found: " ++ command) := by
        unfold validateStdioCommand
        simp [h1, hw]
      refine ⟨?_, ⟨"Command not found: " ++ command, ?_⟩,
        fun spawn2 => ?_⟩ <;> simp [invokeStdioGuarded, hv]
    | some resolved =>
      by_cases h2 : allowedStdioDirs.any (fun p => strStartsWith resolved p)
      · left
        refine ⟨resolved, ?_, h2, ?_⟩
        · unfold validateStdioCommand
          simp [h1, hw, h2]
        · exact Or.inr ⟨by simpa using h1, rfl⟩
      · right
        have hv : validateStdioCommand whichFn command =
            .error ("Resolved command not in allowed directories: " ++ resolved) := by
          unfold validateStdioCommand
          simp [h1, hw, h2]
        refine ⟨?_, ⟨"Resolved command not in allowed directories: " ++ resolved, ?_⟩,
          fun spawn2 => ?_⟩ <;> simp [invokeStdioGuarded, hv]

/-- A PATH environment in which nothing resolves. -/
def whichNone : String → Option String := fun _ => none

/-- A subprocess environment returning a fixed successful result. -/
def spawnTrivial : String → InvocationResult := fun _ => { status := "success" }

/-- C2 witness: the allow-list disjunction instantiated on the absolute path
`/etc/passwd` (outside the allow-list) with an empty PATH environment. -/
theorem c2_stdio_allowlist_witness :
    (∃ resolved, validateStdioCommand whichNone "/etc/passwd" = .ok resolved ∧
        allowedStdioDirs.any (fun p => strStartsWith resolved p) = true ∧
        ((strStartsWith "/etc/passwd" "/" = true ∧ resolved = "/etc/passwd") ∨
          (strStartsWith "/etc/passwd" "/" = false ∧ whichNone "/etc/passwd" = some resolved))) ∨
    ((invokeStdioGuarded whichNone spawnTrivial "/etc/passwd").status = "failure" ∧
      (∃ e, (invokeStdioGuarded whichNone spawnTrivial "/etc/passwd").error =
        some ("Blocked: " ++ e)) ∧
      ∀ spawn2, invokeStdioGuarded whichNone spawn2 "/etc/passwd" =
        invokeStdioGuarded whichNone spawnTrivial "/etc/passwd") :=
  c2_stdio_allowlist "/etc/passwd" whichNone spawnTrivial

/-- A cached success record with confidence 0.90, as in the spec's concrete
degradation scenario. -/
def c6Record : ExperienceRecord :=
  { id := "exp_20250101_1a2b3c4d"
    timestamp := 0
    use_count := 3
    last_used := 0
    intent := { raw := "search text files for a regex pattern"
                fingerprint := "search.text.pattern_match"
                domain := "developer.tools" }
    discovery := { query_used := "search text files for a regex pattern"
                   manifest_matched := "grep"
                   confidence := mkRat 9 10 }
    invocation := { endpoint := "grep", method := "stdio" }
    outcome := { status := "success" } }

/-- C6: `degrade_confidence` on a present id returns the old confidence times
the factor, rewrites that row to the multiplied confidence with outcome
status `failure`, and leaves other rows untouched; on an absent id it returns
`none` and changes nothing.  With the default factor 0.7 a 0.90-confidence
record ends at 0.63 < 0.85, and the updated row is no longer cache-eligible. -/
theorem c6_degrade_confidence (store : List ExperienceRecord) (id : String) (factor : ℚ) :
    (∀ r, store.find? (fun s => s.id == id) = some r →
      (degradeConfidence store id factor).1 = some (r.discovery.confidence * factor) ∧
      (∀ s ∈ store, s.id = id →
        ({ s with
            discovery := { s.discovery with confidence := r.discovery.confidence * factor }
            outcome := { s.outcome with status := "failure" } })
          ∈ (degradeConfidence store id factor).2) ∧
      (∀ s ∈ store, s.id ≠ id → s ∈ (degradeConfidence store id factor).2)) ∧
    (store.find? (fun s => s.id == id) = none →
      degradeConfidence store id factor = (none, store)) ∧
    ((degradeConfidence [c6Record] c6Record.id (mkRat 7 10)).1 = some (mkRat 63 100) ∧
      mkRat 63 100 < mkRat 85 100 ∧
      ∀ s ∈ (degradeConfidence [c6Record] c6Record.id (mkRat 7 10)).2,
        cacheEligible (mkRat 85 100) s = false) := by
  have hmul : mkRat 9 10 * mkRat 7 10 = mkRat 63 100 := by
    rw [Rat.mkRat_eq_div, Rat.mkRat_eq_div, Rat.mkRat_eq_div]
    norm_num
  refine ⟨?_, ?_, ?_, ?_, ?_⟩
  · intro r hr
    refine ⟨?_, ?_, ?_⟩
    · simp [degradeConfidence, hr]
    · intro s hs hsid
      simp only [degradeConfidence, hr]
      refine List.mem_map.mpr ⟨s, hs, ?_⟩
      simp [hsid]
    · intro s hs hsid
      simp only [degradeConfidence, hr]
      refine List.mem_map.mpr ⟨s, hs, ?_⟩
      simp [hsid]
  · intro hr
    simp [degradeConfidence, hr]
  · show (degradeConfidence [c6Record] c6Record.id (mkRat 7 10)).1 = some (mkRat 63 100)
    simp [degradeConfidence, c6Record, hmul]
  · rw [Rat.mkRat_eq_div, Rat.mkRat_eq_div]
    norm_num
  · intro s hs
    simp only [degradeConfidence, c6Record] at hs
    simp only [List.find?_cons] at hs
    norm_num at hs
    subst hs
    simp [cacheEligible]

/-- C6 witness: the present-id clause applied to the one-record store. -/
theorem c6_degrade_confidence_witness :
    ([c6Record].find? (fun s => s.id == "exp_20250101_1a2b3c4d") = some c6Record) ∧
    (degradeConfidence [c6Record] "exp_20250101_1a2b3c4d" (mkRat 7 10)).1 =
      some (c6Record.discovery.confidence * mkRat 7 10) :=
  ⟨by rfl,
    ((c6_degrade_confidence [c6Record] "exp_20250101_1a2b3c4d" (mkRat 7 10)).1
      c6Record (by rfl)).1⟩

/-- The grep candidate of the spec's discovery scenarios. -/
def candGrep : DiscoverMatch :=
  { domain := "grep", name := "grep", description := "Search text files for patterns"
    invoke := { method := "stdio", url := "grep" }, score := mkRat 15 100 }

/-- The jq candidate of the spec's discovery scenarios. -/
def candJq : DiscoverMatch :=
  { domain := "jq", name := "jq", description := "Filter and transform JSON"
    invoke := { method := "stdio", url := "jq" }, score := mkRat 45 100 }

/-- C7: with a non-empty candidate list, (1) a parsed reply whose pick is a
truthy domain found in the candidate list yields that candidate as the match
with the reply's reason attached; (2) a parsed `pick = null` yields no match
and the candidate list unchanged; (3) an LLM error or a parse failure yields
the top vector candidate with reason exactly
`"Selected by vector similarity (LLM reasoning unavailable)"`. -/
theorem c7_discover_decision (c : DiscoverMatch) (rest : List DiscoverMatch) :
    (∀ d reason m, d ≠ "" →
      (c :: rest).find? (fun x => x.domain == d) = some m →
      (discoverDecision (c :: rest) (.reply (some { pick := .pstr d, reason := reason }))).1 =
        some { m with reason := some (reason.getD "") }) ∧
    (∀ reason,
      (discoverDecision (c :: rest) (.reply (some { pick := .pnull, reason := reason }))) =
        (none, c :: rest)) ∧
    ((discoverDecision (c :: rest) .failed).1 =
        some { c with reason := some vectorFallbackReason } ∧
      (discoverDecision (c :: rest) (.reply none)).1 =
        some { c with reason := some vectorFallbackReason }) := by
  refine ⟨?_, ?_, ?_, ?_⟩
  · intro d reason m hd hm
    simp [discoverDecision, hd, hm]
  · intro reason
    simp [discoverDecision]
  · simp [discoverDecision]
  · simp [discoverDecision]

/-- C7 witness: the three clauses instantiated on the two-candidate list of
the spec's scenarios S1/S2. -/
theorem c7_discover_decision_witness :
    ((discoverDecision [candGrep, candJq]
        (.reply (some { pick := .pstr "grep", reason := some "grep is for text search" }))).1 =
      some { candGrep with reason := some "grep is for text search" }) ∧
    ((discoverDecision [candGrep, candJq] (.reply (some { pick := .pnull, reason := none }))) =
      (none, [candGrep, candJq])) ∧
    ((discoverDecision [candGrep, candJq] .failed).1 =
      some { candGrep with reason := some vectorFallbackReason }) :=
  ⟨(c7_discover_decision candGrep [candJq]).1 "grep" (some "grep is for text search")
      candGrep (by decide) (by rfl),
    (c7_discover_decision candGrep [candJq]).2.1 none,
    (c7_discover_decision candGrep [candJq]).2.2.1⟩

/-- A POST manifest with an example and declared JSON input/output formats. -/
def c9Manifest : TManifest :=
  { invoke_method := some "POST"
    invoke_url := some { scheme := "https", host := some (.name "api.example.com") }
    examples := [{ input := some "probe" }]
    input_format := some "application/json"
    output_format := some "application/json" }

/-- A DNS environment resolving every name to a public address. -/
def dnsPublic : DnsEnv := fun _ => some [mkIP 93 184 216 34]

/-- Capability-test network: live endpoint, example POST rejected with 500. -/
def c9EnvFailedExample : CapEnv :=
  { liveHead := some 200, examplePost := some (500, "application/json") }

/-- Capability-test network: live endpoint, example POST succeeds but with a
`text/html` Content-Type. -/
def c9EnvFormatMismatch : CapEnv :=
  { liveHead := some 200, examplePost := some (200, "text/html") }

/-- C9: the overall pass flag of the capability test always equals
`endpoint_live AND (health_ok is not false)`; in particular a failed example
invocation, or a Content-Type that does not match the declared output format,
leaves `passed` true and a Layer-2 attestation is still issued. -/
theorem c9_capability_passed_flag :
    (∀ dns allowHttp env m,
      (testCapability dns allowHttp env m).passed =
        ((testCapability dns allowHttp env m).endpoint_live &&
          ((testCapability dns allowHttp env m).health_ok != some false))) ∧
    ((testCapability dnsPublic false c9EnvFailedExample c9Manifest).example_passed =
        some false ∧
      (testCapability dnsPublic false c9EnvFailedExample c9Manifest).passed = true ∧
      (attestCapability dnsPublic false c9EnvFailedExample "api.example.com"
        (some c9Manifest)).2.isSome = true) ∧
    ((testCapability dnsPublic false c9EnvFormatMismatch c9Manifest).format_match =
        some false ∧
      (testCapability dnsPublic false c9EnvFormatMismatch c9Manifest).passed = true ∧
      (attestCapability dnsPublic false c9EnvFormatMismatch "api.example.com"
        (some c9Manifest)).2.isSome = true) := by
  refine ⟨?_, by decide, by decide⟩
  intro dns allowHttp env m
  by_cases hm : upperStr (m.invoke_method.getD "GET") = "stdio"
  · simp [testCapability, hm]
  · cases hurl : m.invoke_url with
    | none => simp [testCapability, hm, hurl]
    | some url =>
      cases hv : validateUrlTrust dns allowHttp url with
      | error e => simp [testCapability, hm, hurl, hv]
      | ok u =>
        by_cases ha :
          (match m.invoke_auth with | some a => a != "" && a != "none" | none => false : Bool)
        · simp [testCapability, hm, hurl, hv, ha]
        · simp [testCapability, hm, hurl, hv, ha]

/-- A manifest whose invoke method is the literal `stdio` but whose invoke
URL is a well-formed public HTTPS endpoint. -/
def c3Manifest : TManifest :=
  { invoke_method := some "stdio"
    invoke_url := some { scheme := "https", host := some (.name "tools.example.com") } }

/-- Capability-test network for the stdio manifest: the HEAD probe answers 200. -/
def c3Env : CapEnv := { liveHead := some 200 }

/-- C3 evaluation at the failing input: `test_capability` upper-cases the
method before comparing it with the lower-case literal `"stdio"`, so the
stdio skip never fires; a manifest with `invoke.method = "stdio"` and a
live public HTTPS invoke URL passes the capability test and
`attest_capability` signs a Layer-2 attestation for it. -/
theorem c3_stdio_attested_bug :
    c3Manifest.invoke_method = some "stdio" ∧
    upperStr (c3Manifest.invoke_method.getD "GET") ≠ "stdio" ∧
    (testCapability dnsPublic false c3Env c3Manifest).passed = true ∧
    (attestCapability dnsPublic false c3Env "tools.example.com"
      (some c3Manifest)).2.isSome = true := by
  decide

/-- A network on which every dial answers `304 Not Modified` with an empty body. -/
def net304 : NetEnv := fun _ => .resp 304 none []

/-- A public HTTPS URL. -/
def c5Url : Url := { scheme := "https", host := some (.name "example.com") }

/-- C5 counterexample: a final response with status 304 lies in `[200, 400)`
but the Invoker reports failure — httpx's `is_success` is `200 ≤ c < 300`,
so "success iff `200 ≤ c < 400`" is false at this input. -/
theorem c5_counterexample :
    (redirectLoop dnsPublic net304 5 c5Url).2 = .final 304 none [] ∧
    (200 ≤ 304 ∧ 304 < 400) ∧
    ¬(((invokeHttp dnsPublic net304 30 c5Url).2.status = "success") ↔
        (200 ≤ 304 ∧ 304 < 400)) := by
  decide

/-- C5 (amended): for an HTTP invocation completing with a final response of
code `c`, the result status is `success` iff `200 ≤ c < 300` (httpx
`is_success`); the body is the final body truncated to 10 KiB (hence at most
10 KiB long); and a timeout yields a failure whose error is exactly
`HTTP timeout after {n}s`. -/
theorem c5_http_result (dns : DnsEnv) (net : NetEnv) (timeoutS : Nat) (url : Url) :
    (∀ code loc body, (redirectLoop dns net 5 url).2 = .final code loc body →
      (((invokeHttp dns net timeoutS url).2.status = "success") ↔ (200 ≤ code ∧ code < 300)) ∧
      (invokeHttp dns net timeoutS url).2.http_code = some (Int.ofNat code) ∧
      (invokeHttp dns net timeoutS url).2.response_body = body.take maxResponseBytes ∧
      (invokeHttp dns net timeoutS url).2.response_body.length ≤ maxResponseBytes) ∧
    ((redirectLoop dns net 5 url).2 = .timedOut →
      (invokeHttp dns net timeoutS url).2.status = "failure" ∧
      (invokeHttp dns net timeoutS url).2.error =
        some ("HTTP timeout after " ++ toString timeoutS ++ "s")) := by
  constructor
  · intro code loc body hf
    have hres : (invokeHttp dns net timeoutS url).2 =
        invokeHttpFromLoop timeoutS (.final code loc body) := by
      simp [invokeHttp, hf]
    rw [hres]
    refine ⟨?_, ?_, ?_, ?_⟩
    · by_cases hsc : isSuccessCode code
      · have hc : 200 ≤ code ∧ code ≤ 299 := by
          simpa [isSuccessCode] using hsc
        simp [invokeHttpFromLoop, hsc]
        omega
      · have hc : ¬(200 ≤ code ∧ code ≤ 299) := by
          simpa [isSuccessCode] using hsc
        simp [invokeHttpFromLoop, hsc]
        omega
    · simp [invokeHttpFromLoop]
    · simp [invokeHttpFromLoop]
    · simp only [invokeHttpFromLoop]
      exact List.length_take_le maxResponseBytes body
  · intro ht
    have hres : (invokeHttp dns net timeoutS url).2 = invokeHttpFromLoop timeoutS .timedOut := by
      simp [invokeHttp, ht]
    rw [hres]
    exact ⟨rfl, rfl⟩

/-- C5 witness: the final-response clause applied to the all-304 network. -/
theorem c5_http_result_witness :
    (((invokeHttp dnsPublic net304 30 c5Url).2.status = "success") ↔ (200 ≤ 304 ∧ 304 < 300)) ∧
    (invokeHttp dnsPublic net304 30 c5Url).2.http_code = some (Int.ofNat 304) ∧
    (invokeHttp dnsPublic net304 30 c5Url).2.response_body =
      List.take maxResponseBytes [] ∧
    (invokeHttp dnsPublic net304 30 c5Url).2.response_body.length ≤ maxResponseBytes :=
  (c5_http_result dnsPublic net304 30 c5Url).1 304 none [] (by rfl)

theorem redirectLoop_zero_trace (dns : DnsEnv) (net : NetEnv) (url : Url) :
    (redirectLoop dns net 0 url).1 = [url] := by
  unfold redirectLoop
  cases net url with
  | timeout => rfl
  | resp code loc body =>
    dsimp only
    split
    · split
      · rfl
      · split
        · rfl
        · rfl
    · rfl

theorem redirectLoop_dialed_validated (dns : DnsEnv) (net : NetEnv) :
    ∀ fuel url, validateHttpUrl dns url = .ok () →
      ∀ u ∈ (redirectLoop dns net fuel url).1, validateHttpUrl dns u = .ok () := by
  intro fuel
  induction fuel with
  | zero =>
    intro url hok u hu
    rw [redirectLoop_zero_trace] at hu
    simp at hu
    subst hu
    exact hok
  | succ f ih =>
    intro url hok u hu
    cases hnet : net url with
    | timeout =>
      have htr : (redirectLoop dns net (f + 1) url).1 = [url] := by
        unfold redirectLoop
        rw [hnet]
      rw [htr] at hu
      simp at hu
      subst hu
      exact hok
    | resp code loc body =>
      by_cases hred : (isRedirectCode code && loc.isSome) = true
      · cases loc with
        | none =>
          have htr : (redirectLoop dns net (f + 1) url).1 = [url] := by
            unfold redirectLoop
            rw [hnet]
            simp [hred]
          rw [htr] at hu
          simp at hu
          subst hu
          exact hok
        | some nextUrl =>
          have hrc : isRedirectCode code = true := by simpa using hred
          cases hv : validateHttpUrl dns nextUrl with
          | error e =>
            have htr : (redirectLoop dns net (f + 1) url).1 = [url] := by
              conv_lhs => unfold redirectLoop
              rw [hnet]
              simp [hrc, hv]
            rw [htr] at hu
            simp at hu
            subst hu
            exact hok
          | ok uu =>
            cases uu
            have htr : (redirectLoop dns net (f + 1) url).1 =
                url :: (redirectLoop dns net f nextUrl).1 := by
              conv_lhs => unfold redirectLoop
              rw [hnet]
              simp [hrc, hv]
            rw [htr] at hu
            rcases List.mem_cons.mp hu with rfl | hu2
            · exact hok
            · exact ih nextUrl hv u hu2
      · have htr : (redirectLoop dns net (f + 1) url).1 = [url] := by
          unfold redirectLoop
          rw [hnet]
          simp [hred]
        rw [htr] at hu
        simp at hu
        subst hu
        exact hok

/-- A DNS environment on which nothing resolves. -/
def dnsEmpty : DnsEnv := fun _ => none

/-- A non-HTTPS URL whose hostname is a multicast IP literal. -/
def multicastUrl : Url := { scheme := "http", host := some (.ip (mkIP 224 1 2 3)) }

/-- C1 counterexample: the Invoker's URL guard accepts `http://224.1.2.3`,
a URL the claim requires to be rejected twice over — its scheme is not
`https` (and no `allow_http` flag exists here) and its hostname is a
multicast IP literal. -/
theorem c1_counterexample :
    validateHttpUrl dnsEmpty multicastUrl = .ok () ∧
    ipIsMulticast (mkIP 224 1 2 3) = true ∧
    multicastUrl.scheme ≠ "https" :=
  ⟨by rfl, by decide, by decide⟩

/-- C1 (amended): the two URL guards differ.  The Invoker's guard
(`_validate_http_url`) rejects a missing hostname, a DNS failure, and any
resolved address that is private, loopback or link-local (CPython's private
set includes the reserved `240.0.0.0/4` block) — but it checks no scheme and
accepts multicast addresses.  The trust-side guard (`_validate_url`)
additionally enforces the scheme whitelist and rejects reserved and multicast
addresses.  Every URL the Invoker's HTTP path dials — the first dial and
every redirect hop — has passed the Invoker's guard, and a URL failing that
guard produces the `SSRF blocked` failure with nothing dialed. -/
theorem c1_url_guards :
    (∀ (dns : DnsEnv) (u : Url), u.host = none →
      validateHttpUrl dns u ≠ .ok ()) ∧
    (∀ (dns : DnsEnv) (u : Url) (h : Host) (ips : List Nat) (a : Nat),
      u.host = some h → resolveHost dns h = some ips → a ∈ ips →
      (ipIsPrivate a || ipIsLoopback a || ipIsLinkLocal a) = true →
      validateHttpUrl dns u ≠ .ok ()) ∧
    (∀ (dns : DnsEnv) (u : Url) (s : String), u.host = some (.name s) →
      dns s = none → validateHttpUrl dns u ≠ .ok ()) ∧
    (∀ (dns : DnsEnv) (u : Url), validateUrlTrust dns false u = .ok () →
      u.scheme = "https") ∧
    (∀ (dns : DnsEnv) (allowHttp : Bool) (u : Url),
      validateUrlTrust dns allowHttp u = .ok () →
      (u.scheme = "http" ∨ u.scheme = "https") ∧ u.host ≠ none) ∧
    (∀ (dns : DnsEnv) (allowHttp : Bool) (u : Url) (h : Host) (ips : List Nat) (a : Nat),
      u.host = some h → resolveHost dns h = some ips → a ∈ ips →
      trustIsPrivateIp a = true → validateUrlTrust dns allowHttp u ≠ .ok ()) ∧
    (∀ (dns : DnsEnv) (allowHttp : Bool) (u : Url) (s : String),
      u.host = some (.name s) → dns s = none →
      validateUrlTrust dns allowHttp u ≠ .ok ()) ∧
    (∀ (dns : DnsEnv) (net : NetEnv) (fuel : Nat) (url : Url),
      validateHttpUrl dns url = .ok () →
      ∀ u ∈ (redirectLoop dns net fuel url).1, validateHttpUrl dns u = .ok ()) ∧
    (∀ (dns : DnsEnv) (net : NetEnv) (timeoutS : Nat) (u : Url) (e : String),
      validateHttpUrl dns u = .error e →
      invokeManifestHttp dns net timeoutS u =
        ([], { status := "failure", latency_ms := 0,
               error := some ("SSRF blocked: " ++ e) })) := by
  refine ⟨?_, ?_, ?_, ?_, ?_, ?_, ?_, ?_, ?_⟩
  · intro dns u hh
    simp [validateHttpUrl, hh]
  · intro dns u h ips a hh hr hmem hbad
    have hany : ips.any (fun a => ipIsPrivate a || ipIsLoopback a || ipIsLinkLocal a) = true :=
      List.any_eq_true.mpr ⟨a, hmem, hbad⟩
    simp [validateHttpUrl, hh, hr, hany]
  · intro dns u s hh hdns
    simp [validateHttpUrl, hh, resolveHost, hdns]
  · intro dns u hok
    by_contra hs
    have hc : (!false && (u.scheme != "https")) = true := by simp [hs]
    unfold validateUrlTrust at hok
    rw [if_pos hc] at hok
    exact absurd hok (by simp)
  · intro dns allowHttp u hok
    unfold validateUrlTrust at hok
    by_cases h1 : (!allowHttp && (u.scheme != "https")) = true
    · rw [if_pos h1] at hok
      exact absurd hok (by simp)
    · rw [if_neg h1] at hok
      by_cases h2 : ((u.scheme != "http") && (u.scheme != "https")) = true
      · rw [if_pos h2] at hok
        exact absurd hok (by simp)
      · rw [if_neg h2] at hok
        constructor
        · by_contra hsch
          push_neg at hsch
          exact absurd (by simp [hsch.1, hsch.2] :
            ((u.scheme != "http") && (u.scheme != "https")) = true) h2
        · intro hnone
          rw [hnone] at hok
          exact absurd hok (by simp)
  · intro dns allowHttp u h ips a hh hr hmem hbad hok
    unfold validateUrlTrust at hok
    by_cases h1 : (!allowHttp && (u.scheme != "https")) = true
    · rw [if_pos h1] at hok
      exact absurd hok (by simp)
    · rw [if_neg h1] at hok
      by_cases h2 : ((u.scheme != "http") && (u.scheme != "https")) = true
      · rw [if_pos h2] at hok
        exact absurd hok (by simp)
      · rw [if_neg h2] at hok
        rw [hh] at hok
        cases h with
        | ip b =>
          have hib : [b] = ips := by simpa [resolveHost] using hr
          subst hib
          have hab : a = b := by simpa using hmem
          subst hab
          simp [hbad] at hok
        | name s =>
          have hdns : dns s = some ips := by simpa [resolveHost] using hr
          have hne : ips.isEmpty = false := by
            cases ips with
            | nil => simp at hmem
            | cons x xs => rfl
          have hany : ips.any trustIsPrivateIp = true :=
            List.any_eq_true.mpr ⟨a, hmem, hbad⟩
          simp [hdns, hne, hany] at hok
  · intro dns allowHttp u s hh hdns hok
    unfold validateUrlTrust at hok
    by_cases h1 : (!allowHttp && (u.scheme != "https")) = true
    · rw [if_pos h1] at hok
      exact absurd hok (by simp)
    · rw [if_neg h1] at hok
      by_cases h2 : ((u.scheme != "http") && (u.scheme != "https")) = true
      · rw [if_pos h2] at hok
        exact absurd hok (by simp)
      · rw [if_neg h2] at hok
        rw [hh] at hok
        simp [hdns] at hok
  · intro dns net fuel url hok u hu
    exact redirectLoop_dialed_validated dns net fuel url hok u hu
  · intro dns net timeoutS u e he
    simp [invokeManifestHttp, he]

/-- A URL with a loopback IP-literal hostname, as in scenario S6. -/
def loopbackUrl : Url := { scheme := "http", host := some (.ip (mkIP 127 0 0 1)) }

/-- C1 witness: the Invoker's guard rejects the loopback literal
`http://127.0.0.1`, and `invoke_manifest` returns the `SSRF blocked` failure
with nothing dialed. -/
theorem c1_url_guards_witness :
    validateHttpUrl dnsEmpty loopbackUrl ≠ .ok () ∧
    invokeManifestHttp dnsEmpty net304 30 loopbackUrl =
      ([], { status := "failure", latency_ms := 0,
             error := some ("SSRF blocked: " ++ "URL resolves to private IP") }) :=
  ⟨(c1_url_guards.2.1) dnsEmpty loopbackUrl (.ip (mkIP 127 0 0 1)) [mkIP 127 0 0 1]
      (mkIP 127 0 0 1) (by rfl) (by rfl) (by decide) (by decide),
    (c1_url_guards.2.2.2.2.2.2.2.2) dnsEmpty net304 30 loopbackUrl
      "URL resolves to private IP" (by rfl)⟩

/-- A concrete extracted parameter mapping with two values. -/
def c8Mapping : List (String × ParameterMapping) :=
  [("pattern", { value_used := "hello" }), ("file", { value_used := "a.txt" })]

/-- C8 counterexample: for a stdio match in path 2 (and path 3), the
extracted values are joined into a single whitespace-separated stdin string
and no params are passed, so the subprocess argv is just the command — the
values are not passed as positional argv arguments. -/
theorem c8_counterexample :
    stdioParamsPath2 "stdio" c8Mapping = (none, some "hello a.txt") ∧
    stdioParamsPath3 "stdio" c8Mapping = (none, some "hello a.txt") ∧
    buildArgv "/usr/bin/grep" (stdioParamsPath2 "stdio" c8Mapping).1 = ["/usr/bin/grep"] ∧
    buildArgv "/usr/bin/grep" (stdioParamsPath2 "stdio" c8Mapping).1 ≠
      "/usr/bin/grep" :: (c8Mapping.map (fun kv => kv.2.value_used)) := by
  decide

/-- C8 (amended): the three paths build stdio parameters identically — for a
non-empty mapping and a stdio method, each concatenates the mapping's values
into one whitespace-joined string passed as stdin, with no positional argv
parameters. -/
theorem c8_stdio_param_paths (method : String) (pm : List (String × ParameterMapping)) :
    stdioParamsPath1 method pm = stdioParamsPath2 method pm ∧
    stdioParamsPath2 method pm = stdioParamsPath3 method pm ∧
    (pm ≠ [] → upperStr method = "STDIO" →
      stdioParamsPath1 method pm =
        (none, some (joinWith " " (pm.map (fun kv => kv.2.value_used))))) := by
  refine ⟨rfl, rfl, ?_⟩
  intro hne hm
  have h1 : pm.isEmpty = false := by
    cases pm with
    | nil => exact absurd rfl hne
    | cons a l => rfl
  have h2 : (pm.map (fun kv => kv.2.value_used)).isEmpty = false := by
    cases pm with
    | nil => exact absurd rfl hne
    | cons a l => rfl
  simp [stdioParamsPath1, h1, hm, h2]

/-- C8 witness: the amended equality applied to the concrete mapping. -/
theorem c8_stdio_param_paths_witness :
    stdioParamsPath1 "stdio" c8Mapping =
      (none, some (joinWith " " (c8Mapping.map (fun kv => kv.2.value_used)))) :=
  (c8_stdio_param_paths "stdio" c8Mapping).2.2 (by decide) (by decide)

theorem cacheEligible_iff (t : ℚ) (r : ExperienceRecord) :
    cacheEligible t r = true ↔
      (r.outcome.status = "success" ∧ t ≤ r.discovery.confidence) := by
  constructor
  · intro h
    simp [cacheEligible] at h
    exact ⟨h.2, h.1⟩
  · intro h
    simp [cacheEligible]
    exact ⟨h.2, h.1⟩

theorem path2_route (env : EngineEnv) (store : List ExperienceRecord)
    (req : ExperienceInvokeRequest) (fp dom : String) (template : ExperienceRecord) :
    (path2PartialMatchRun env store req fp dom template).1.route.path = "partial_match" := by
  unfold path2PartialMatchRun
  cases env.discoverResult.matched <;> rfl

theorem path3_route (env : EngineEnv) (store : List ExperienceRecord)
    (req : ExperienceInvokeRequest) (fp dom : String) :
    (path3FullDiscovery env store req fp dom).1.route.path = "full_discovery" := by
  unfold path3FullDiscovery
  cases env.discoverResult.matched <;> rfl

/-- C4 (amended): with a fingerprinted intent, the engine routes via
`cache_hit` exactly when some record among those returned by the
fingerprint lookup (`find_by_fingerprint`, the top `LIMIT 5` exact matches
ordered by use count and recency) has outcome status `success` and
confidence at least the threshold; the record served is the first eligible
one, the response carries its id and confidence, and the updated store is the
original with exactly that record's `use_count` advanced by 1 (and
`last_used` refreshed). -/
theorem c4_cache_route (env : EngineEnv) (store : List ExperienceRecord)
    (req : ExperienceInvokeRequest) (fp dom : String)
    (hfp : env.fingerprintResult = some (fp, dom)) :
    ((processEngine env store req).1.route.path = "cache_hit" ↔
      ∃ r ∈ findByFingerprint store fp 5,
        r.outcome.status = "success" ∧
          req.confidence_threshold ≤ r.discovery.confidence) ∧
    (∀ r, (findByFingerprint store fp 5).find?
        (cacheEligible req.confidence_threshold) = some r →
      (r.outcome.status = "success" ∧
        req.confidence_threshold ≤ r.discovery.confidence) ∧
      (processEngine env store req).1.route.path = "cache_hit" ∧
      (processEngine env store req).1.route.experience_id = some r.id ∧
      (processEngine env store req).1.route.cache_confidence =
        some r.discovery.confidence ∧
      (processEngine env store req).2 = touchStore store r.id env.now ∧
      ∀ s ∈ store, s.id = r.id →
        { s with use_count := s.use_count + 1, last_used := env.now } ∈
          (processEngine env store req).2) := by
  cases hfind : (findByFingerprint store fp 5).find? (cacheEligible req.confidence_threshold) with
  | some r0 =>
    have hpe : processEngine env store req = path1CacheHit env store req r0 := by
      unfold processEngine
      rw [hfp]
      dsimp only
      rw [hfind]
    constructor
    · constructor
      · intro _
        exact ⟨r0, List.mem_of_find?_eq_some hfind,
          (cacheEligible_iff _ _).mp (List.find?_some hfind)⟩
      · intro _
        rw [hpe]
        rfl
    · intro r hr
      have hrr : r0 = r := by injection hr
      subst hrr
      refine ⟨(cacheEligible_iff _ _).mp (List.find?_some hfind), ?_, ?_, ?_, ?_, ?_⟩
      · rw [hpe]; rfl
      · rw [hpe]; rfl
      · rw [hpe]; rfl
      · rw [hpe]; rfl
      · intro s hs hsid
        rw [hpe]
        show _ ∈ touchStore store r0.id env.now
        refine List.mem_map.mpr ⟨s, hs, ?_⟩
        simp [hsid]
  | none =>
    have hne : ¬ ∃ r ∈ findByFingerprint store fp 5,
        r.outcome.status = "success" ∧
          req.confidence_threshold ≤ r.discovery.confidence := by
      intro ⟨r, hmem, helig⟩
      have : ((findByFingerprint store fp 5).find?
          (cacheEligible req.confidence_threshold)).isSome :=
        List.find?_isSome.mpr ⟨r, hmem, (cacheEligible_iff _ _).mpr helig⟩
      rw [hfind] at this
      simp at this
    have hnp : (processEngine env store req).1.route.path = "partial_match" ∨
        (processEngine env store req).1.route.path = "full_discovery" := by
      unfold processEngine
      rw [hfp]
      dsimp only
      rw [hfind]
      dsimp only
      by_cases hp : 2 ≤ (splitOnChar '.' fp).length
      · rw [if_pos hp]
        cases hsim : findSimilar store dom (joinWith "." ((splitOnChar '.' fp).take 2)) with
        | nil => exact Or.inr (path3_route env store req fp dom)
        | cons best rest => exact Or.inl (path2_route env store req fp dom best)
      · rw [if_neg hp]
        exact Or.inr (path3_route env store req fp dom)
    constructor
    · constructor
      · intro hch
        rcases hnp with h | h <;> rw [h] at hch <;> exact absurd hch (by decide)
      · intro hex
        exact absurd hex hne
    · intro r hr
      simp at hr

/-- Builds the experience records of the LIMIT-5 counterexample store. -/
def mkC4Record (id : String) (uc : Nat) (status : String) (conf : ℚ) : ExperienceRecord :=
  { id := id
    timestamp := 0
    use_count := uc
    last_used := 0
    intent := { raw := "search text files for a regex pattern"
                fingerprint := "search.text.pattern_match"
                domain := "developer.tools" }
    discovery := { query_used := "search text files for a regex pattern"
                   manifest_matched := "grep"
                   confidence := conf }
    invocation := { endpoint := "grep", method := "stdio" }
    outcome := { status := status } }

/-- Six records with the same fingerprint: the five most-used ones are failed
experiences, the sixth (least used) is an eligible success. -/
def c4Store : List ExperienceRecord :=
  [ mkC4Record "exp_a" 7 "failure" (mkRat 30 100)
  , mkC4Record "exp_b" 6 "failure" (mkRat 30 100)
  , mkC4Record "exp_c" 5 "failure" (mkRat 30 100)
  , mkC4Record "exp_d" 4 "failure" (mkRat 30 100)
  , mkC4Record "exp_e" 3 "failure" (mkRat 30 100)
  , mkC4Record "exp_f" 1 "success" (mkRat 92 100) ]

/-- The engine environment for the counterexample run: fingerprinting yields
the records' fingerprint; discovery finds nothing; invocation is inert. -/
def c4Env : EngineEnv :=
  { fingerprintResult := some ("search.text.pattern_match", "developer.tools")
    invoke := fun _ _ _ => { status := "failure" } }

/-- The request with the default 0.85 threshold. -/
def c4Req : ExperienceInvokeRequest := { task := "search text files for a regex pattern" }

/-- C4 counterexample: the store holds a record with an exactly matching
fingerprint, outcome status `success`, and confidence 0.92 ≥ 0.85 — yet the
engine does not route via `cache_hit`, because `find_by_fingerprint` returns
only the top 5 records by use count and the eligible record is ranked 6th. -/
theorem c4_counterexample :
    (∃ r ∈ c4Store, r.intent.fingerprint = "search.text.pattern_match" ∧
      r.outcome.status = "success" ∧
      c4Req.confidence_threshold ≤ r.discovery.confidence) ∧
    (processEngine c4Env c4Store c4Req).1.route.path ≠ "cache_hit" := by
  decide

/-- A one-record store holding an eligible cached success. -/
def c4HitStore : List ExperienceRecord :=
  [ mkC4Record "exp_hit" 2 "success" (mkRat 92 100) ]

/-- C4 witness: the first-eligible clause applied to the one-record store,
with the cache hit observed and the record's use count advanced by 1. -/
theorem c4_cache_route_witness :
    ((findByFingerprint c4HitStore "search.text.pattern_match" 5).find?
        (cacheEligible c4Req.confidence_threshold) =
      some (mkC4Record "exp_hit" 2 "success" (mkRat 92 100))) ∧
    ((mkC4Record "exp_hit" 2 "success" (mkRat 92 100)).outcome.status = "success" ∧
      c4Req.confidence_threshold ≤
        (mkC4Record "exp_hit" 2 "success" (mkRat 92 100)).discovery.confidence) ∧
    (processEngine c4Env c4HitStore c4Req).1.route.path = "cache_hit" ∧
    (processEngine c4Env c4HitStore c4Req).1.route.experience_id = some "exp_hit" ∧
    (processEngine c4Env c4HitStore c4Req).1.route.cache_confidence =
      some (mkRat 92 100) ∧
    (processEngine c4Env c4HitStore c4Req).2 =
      touchStore c4HitStore "exp_hit" c4Env.now ∧
    ∀ s ∈ c4HitStore, s.id = "exp_hit" →
      { s with use_count := s.use_count + 1, last_used := c4Env.now } ∈
        (processEngine c4Env c4HitStore c4Req).2 := by
  have h := (c4_cache_route c4Env c4HitStore c4Req "search.text.pattern_match"
    "developer.tools" (by rfl)).2
    (mkC4Record "exp_hit" 2 "success" (mkRat 92 100)) (by decide)
  exact ⟨by decide, h.1, h.2.1, h.2.2.1, h.2.2.2.1, h.2.2.2.2.1, h.2.2.2.2.2⟩
